import Mathlib

/-!
Verification of the rust-trending announcement pipeline.

Rust strings are modelled as lists of Unicode scalar values (Lean `Char`).
Byte positions and byte lengths are recovered through the UTF-8 size of each
scalar, so `String::len` becomes `utf8Len` and `str::split_at` becomes
`splitAtByteBoundary`, which fails (`none`) exactly where Rust panics: when
the requested index is out of range or not on a character boundary.
Fallible steps return `Option`/`Except`; `usize` subtractions that Rust would
reject as arithmetic overflow are modelled as failure (`none`).
-/

/-- The item structure parsed from the trending page (struct Repo in main.rs). -/
structure Repo where
  author : List Char
  description : List Char
  name : List Char
  stars : Nat
deriving DecidableEq

/-- Number of bytes of the UTF-8 encoding of one Unicode scalar value. -/
def charBytes (c : Char) : Nat :=
  if c.toNat ≤ 0x7F then 1
  else if c.toNat ≤ 0x7FF then 2
  else if c.toNat ≤ 0xFFFF then 3
  else 4

/-- Byte length of a string, i.e. Rust String::len. -/
def utf8Len (s : List Char) : Nat :=
  (s.map charBytes).sum

/-- The constant SMALL_COMMERCIAL_AT, the single scalar U+FE6B. -/
def smallCommercialAt : Char := '﹫'

/-- The four-character marker appended by truncation (space and three dots). -/
def ellipsisSuffix : List Char := [' ', '.', '.', '.']

/-- TWEET_LENGTH from main.rs. -/
def TWEET_LENGTH : Nat := 280

/-- TOOT_LENGTH from main.rs. -/
def TOOT_LENGTH : Nat := 500

/-- BLUESKY_POST_LENGTH from main.rs. -/
def BLUESKY_POST_LENGTH : Nat := 300

/-- MASTODON_FIXED_URL_LENGTH from main.rs. -/
def MASTODON_FIXED_URL_LENGTH : Nat := 23

/-- Rust str::split_at on byte index n: succeeds with the two halves when n
lies on a character boundary within the string, otherwise Rust panics,
modelled as none. -/
def splitAtByteBoundary : List Char → Nat → Option (List Char × List Char)
  | s, 0 => some ([], s)
  | [], _ + 1 => none
  | c :: s, n + 1 =>
    if charBytes c ≤ n + 1 then
      (splitAtByteBoundary s (n + 1 - charBytes c)).map (fun p => (c :: p.1, p.2))
    else none

/-- The replacement repo.description.replace of every commercial at sign
by SMALL_COMMERCIAL_AT (a single scalar, so a per-scalar map). -/
def sanitizeDescription (s : List Char) : List Char :=
  s.map (fun c => if c = '@' then smallCommercialAt else c)

/-- make_post_description from main.rs.  The comparison reads the byte
length of the ORIGINAL description while the split is taken on the
sanitized one, exactly as in the source.  none models a panic: either the
subtraction length_left - 4 underflows, or the byte index length_left - 4
is not a character boundary of the sanitized description. -/
def make_post_description (repo : Repo) (length_left : Nat) : Option (List Char) :=
  let description := sanitizeDescription repo.description
  if utf8Len repo.description < length_left then
    some description
  else if length_left < 4 then
    none
  else
    (splitAtByteBoundary description (length_left - 4)).map (fun p => p.1 ++ ellipsisSuffix)

/-- make_repo_title from main.rs. -/
def make_repo_title (repo : Repo) : List Char :=
  if repo.author ≠ repo.name then
    repo.author ++ (" / ").data ++ repo.name
  else
    repo.name

/-- The fixed leading part of a post; embeds make_post_prefix from main.rs
(the source name is unavailable here, see make_repo_title for the title). -/
def make_post_head (repo : Repo) : List Char :=
  make_repo_title repo ++ (": ").data

/-- make_post_stars from main.rs: a space, the black star U+2605 and the
decimal rendering of the star count. -/
def make_post_stars (repo : Repo) : List Char :=
  (" ★").data ++ (Nat.repr repo.stars).data

/-- make_post_url from main.rs. -/
def make_post_url (repo : Repo) : List Char :=
  (" https://github.com/").data ++ repo.author ++ ('/' :: repo.name)

/-- Byte length of the furniture used by make_tweet and post_bluesky:
title part, stars part and the literal URL. -/
def postFurniture (repo : Repo) : Nat :=
  utf8Len (make_post_head repo) + utf8Len (make_post_stars repo) + utf8Len (make_post_url repo)

/-- Byte length of the furniture used by make_toot: title part, stars part
and the fixed width Mastodon assigns to every link. -/
def mastodonFurniture (repo : Repo) : Nat :=
  utf8Len (make_post_head repo) + utf8Len (make_post_stars repo) + MASTODON_FIXED_URL_LENGTH

/-- make_tweet from main.rs.  none models a panic: the usize subtraction
TWEET_LENGTH - furniture overflowing, or make_post_description panicking. -/
def make_tweet (repo : Repo) : Option (List Char) :=
  if TWEET_LENGTH < postFurniture repo then none
  else
    (make_post_description repo (TWEET_LENGTH - postFurniture repo)).map
      (fun d => make_post_head repo ++ d ++ make_post_stars repo ++ make_post_url repo)

/-- make_toot from main.rs: the length budget counts the URL at the fixed
width 23, but the full literal URL is appended to the text. -/
def make_toot (repo : Repo) : Option (List Char) :=
  if TOOT_LENGTH < mastodonFurniture repo then none
  else
    (make_post_description repo (TOOT_LENGTH - mastodonFurniture repo)).map
      (fun d => make_post_head repo ++ d ++ make_post_stars repo ++ make_post_url repo)

/-- The text built inside post_bluesky in main.rs: identical to make_tweet
except for the budget BLUESKY_POST_LENGTH. -/
def make_bluesky_text (repo : Repo) : Option (List Char) :=
  if BLUESKY_POST_LENGTH < postFurniture repo then none
  else
    (make_post_description repo (BLUESKY_POST_LENGTH - postFurniture repo)).map
      (fun d => make_post_head repo ++ d ++ make_post_stars repo ++ make_post_url repo)

theorem one_le_charBytes (c : Char) : 1 ≤ charBytes c := by
  unfold charBytes
  split
  · exact le_refl 1
  · split
    · omega
    · split <;> omega

theorem length_le_utf8Len (s : List Char) : s.length ≤ utf8Len s := by
  induction s with
  | nil => simp [utf8Len]
  | cons c s ih =>
    have := one_le_charBytes c
    simp only [utf8Len, List.map_cons, List.sum_cons, List.length_cons]
    simp only [utf8Len] at ih
    omega

theorem utf8Len_append (s t : List Char) : utf8Len (s ++ t) = utf8Len s + utf8Len t := by
  simp [utf8Len]

theorem utf8Len_cons (c : Char) (s : List Char) :
    utf8Len (c :: s) = charBytes c + utf8Len s := by
  simp [utf8Len]

theorem length_sanitize (s : List Char) :
    (sanitizeDescription s).length = s.length := by
  simp [sanitizeDescription]

/-- Correctness of the byte splitter: a successful split decomposes the
string and the left half occupies exactly the requested number of bytes. -/
theorem splitAtByteBoundary_spec (s : List Char) :
    ∀ n a b, splitAtByteBoundary s n = some (a, b) → s = a ++ b ∧ utf8Len a = n := by
  induction s with
  | nil =>
    intro n a b h
    cases n with
    | zero =>
      simp only [splitAtByteBoundary, Option.some.injEq, Prod.mk.injEq] at h
      obtain ⟨rfl, rfl⟩ := h
      simp [utf8Len]
    | succ m => simp [splitAtByteBoundary] at h
  | cons c s ih =>
    intro n a b h
    cases n with
    | zero =>
      simp only [splitAtByteBoundary, Option.some.injEq, Prod.mk.injEq] at h
      obtain ⟨rfl, rfl⟩ := h
      simp [utf8Len]
    | succ m =>
      simp only [splitAtByteBoundary] at h
      split at h
      · rw [Option.map_eq_some'] at h
        obtain ⟨⟨a', b'⟩, hsp, heq⟩ := h
        obtain ⟨rfl, rfl⟩ := Prod.mk.injEq .. ▸ heq
        obtain ⟨hs, hlen⟩ := ih _ _ _ hsp
        constructor
        · simp [hs]
        · rw [utf8Len_cons, hlen]
          omega
      · exact absurd h (by simp)

/-- A successful make_post_description result has at most length_left
scalar values. -/
theorem make_post_description_length_le (repo : Repo) (L : Nat) (d : List Char)
    (h : make_post_description repo L = some d) : d.length ≤ L := by
  unfold make_post_description at h
  split at h
  · obtain rfl := Option.some.inj h
    have h1 := length_sanitize repo.description
    have h2 := length_le_utf8Len repo.description
    omega
  · split at h
    · exact absurd h (by simp)
    · rw [Option.map_eq_some'] at h
      obtain ⟨⟨a, b⟩, hsp, rfl⟩ := h
      obtain ⟨hs, hlen⟩ := splitAtByteBoundary_spec _ _ _ _ hsp
      have h3 := length_le_utf8Len a
      simp only [List.length_append]
      have h4 : ellipsisSuffix.length = 4 := by decide
      omega

/-- An abstract model of grapheme-cluster counting.  Any sensible
segmentation (in particular UAX 29 extended grapheme clusters) satisfies
both laws: a cluster contains at least one scalar value, and concatenating
two strings can merge clusters at the seam but never create extra ones. -/
structure GraphemeModel where
  count : List Char → Nat
  count_le_length : ∀ s, count s ≤ s.length
  count_append_le : ∀ s t, count (s ++ t) ≤ count s + count t

/-- The degenerate model counting every scalar as its own cluster; it
witnesses that the GraphemeModel laws are satisfiable. -/
def scalarModel : GraphemeModel where
  count := List.length
  count_le_length := fun s => le_refl s.length
  count_append_le := fun s t => by simp

theorem count_le_utf8Len (g : GraphemeModel) (s : List Char) :
    g.count s ≤ utf8Len s :=
  le_trans (g.count_le_length s) (length_le_utf8Len s)

theorem count_four_parts_le (g : GraphemeModel) (a d c u : List Char) :
    g.count (a ++ d ++ c ++ u) ≤ g.count a + g.count d + g.count c + g.count u := by
  have h1 := g.count_append_le (a ++ d ++ c) u
  have h2 := g.count_append_le (a ++ d) c
  have h3 := g.count_append_le a d
  omega

theorem count_three_parts_le (g : GraphemeModel) (a d c : List Char) :
    g.count (a ++ d ++ c) ≤ g.count a + g.count d + g.count c := by
  have h1 := g.count_append_le (a ++ d) c
  have h2 := g.count_append_le a d
  omega

/-- Shared budget argument: the formatted text built from a description
that fits in the remaining budget stays within the whole budget, for any
grapheme model (each part contributes at most its byte length). -/
theorem count_formatted_le (g : GraphemeModel) (repo : Repo) (B : Nat) (d : List Char)
    (hfurn : postFurniture repo ≤ B) (hd : d.length ≤ B - postFurniture repo) :
    g.count (make_post_head repo ++ d ++ make_post_stars repo ++ make_post_url repo) ≤ B := by
  have h1 := count_four_parts_le g (make_post_head repo) d (make_post_stars repo) (make_post_url repo)
  have h2 := count_le_utf8Len g (make_post_head repo)
  have h3 := g.count_le_length d
  have h4 := count_le_utf8Len g (make_post_stars repo)
  have h5 := count_le_utf8Len g (make_post_url repo)
  unfold postFurniture at hfurn hd
  omega

/-- C1 (amended): whenever the formatter completes without panicking, the
announcement fits the platform budget measured in grapheme clusters, for
every grapheme model: Twitter 280 against the literal URL, Mastodon 500
with every link counted at the fixed width 23, Bluesky 300 against the
literal URL.  (The claim as stated fails only because the formatter can
panic and produce no string at all; see the counterexample.) -/
theorem announcement_fits_budget_of_success (g : GraphemeModel) (repo : Repo) :
    (postFurniture repo < TWEET_LENGTH →
      ∀ s, make_tweet repo = some s → g.count s ≤ TWEET_LENGTH) ∧
    (mastodonFurniture repo < TOOT_LENGTH →
      ∀ d, make_post_description repo (TOOT_LENGTH - mastodonFurniture repo) = some d →
        g.count (make_post_head repo ++ d ++ make_post_stars repo) +
          MASTODON_FIXED_URL_LENGTH ≤ TOOT_LENGTH) ∧
    (postFurniture repo < BLUESKY_POST_LENGTH →
      ∀ s, make_bluesky_text repo = some s → g.count s ≤ BLUESKY_POST_LENGTH) := by
  refine ⟨?_, ?_, ?_⟩
  · intro hf s hs
    unfold make_tweet at hs
    rw [if_neg (by omega)] at hs
    rw [Option.map_eq_some'] at hs
    obtain ⟨d, hd, rfl⟩ := hs
    exact count_formatted_le g repo TWEET_LENGTH d (le_of_lt hf)
      (make_post_description_length_le repo _ d hd)
  · intro hf d hd
    have hlen := make_post_description_length_le repo _ d hd
    have h1 := count_three_parts_le g (make_post_head repo) d (make_post_stars repo)
    have h2 := count_le_utf8Len g (make_post_head repo)
    have h3 := g.count_le_length d
    have h4 := count_le_utf8Len g (make_post_stars repo)
    unfold mastodonFurniture at hf hlen
    omega
  · intro hf s hs
    unfold make_bluesky_text at hs
    rw [if_neg (by omega)] at hs
    rw [Option.map_eq_some'] at hs
    obtain ⟨d, hd, rfl⟩ := hs
    exact count_formatted_le g repo BLUESKY_POST_LENGTH d (le_of_lt hf)
      (make_post_description_length_le repo _ d hd)

/-- A repo whose description is made entirely of regional-indicator scalars
(the building blocks of flag emoji): 62 copies of U+1F1E6, i.e. 31 flags. -/
def flagEmojiRepo : Repo :=
  { author := ['a'], description := List.replicate 62 (Char.ofNat 0x1F1E6),
    name := ['b'], stars := 0 }

set_option maxRecDepth 4000 in
/-- C1 counterexample: for this item the budget (280) exceeds the furniture
(35 bytes), yet make_tweet produces no announcement string at all - the
truncation index 241 falls in the middle of a 4-byte regional-indicator
scalar, so Rust str::split_at panics.  Hence the claim that for any
description the formatted string fits the budget fails: for this
description there is no formatted string. -/
theorem tweet_has_no_result_on_flag_emoji :
    postFurniture flagEmojiRepo < TWEET_LENGTH ∧ make_tweet flagEmojiRepo = none := by
  constructor
  · decide
  · decide

/-- Concrete short item used to witness the amended C1 bound. -/
def fitRepo : Repo := { author := ['a'], description := ['h', 'i'], name := ['b'], stars := 0 }

/-- The tweet text the formatter produces for fitRepo. -/
def fitTweet : List Char := (make_tweet fitRepo).getD []

/-- Witness for the amended C1 theorem at a concrete item, under the
scalar-counting grapheme model. -/
theorem announcement_fits_budget_of_success_witness :
    (make_tweet fitRepo = some fitTweet ∧ scalarModel.count fitTweet ≤ TWEET_LENGTH) ∧
    (make_post_description fitRepo (TOOT_LENGTH - mastodonFurniture fitRepo) = some ['h', 'i'] ∧
      scalarModel.count (make_post_head fitRepo ++ ['h', 'i'] ++ make_post_stars fitRepo) +
        MASTODON_FIXED_URL_LENGTH ≤ TOOT_LENGTH) ∧
    (make_bluesky_text fitRepo = some fitTweet ∧ scalarModel.count fitTweet ≤ BLUESKY_POST_LENGTH) := by
  have h := announcement_fits_budget_of_success scalarModel fitRepo
  exact ⟨⟨by decide, h.1 (by decide) fitTweet (by decide)⟩,
    ⟨by decide, h.2.1 (by decide) ['h', 'i'] (by decide)⟩,
    ⟨by decide, h.2.2 (by decide) fitTweet (by decide)⟩⟩

/-- A repo whose description is 123 copies of the two-byte scalar U+00E9. -/
def accentOnlyRepo : Repo :=
  { author := ['c'], description := List.replicate 123 'é', name := ['d'], stars := 0 }

set_option maxRecDepth 4000 in
/-- C2: the formatter is NOT total.  For this item the budget exceeds the
furniture (35 bytes, so the precondition holds and length_left is 245),
the description is 246 bytes of two-byte scalars, and the truncation byte
index 241 is odd, hence not a character boundary: Rust str::split_at
panics inside make_post_description, modelled here as none. -/
theorem formatter_panics_on_failing_input :
    postFurniture accentOnlyRepo < TWEET_LENGTH ∧ make_tweet accentOnlyRepo = none := by
  constructor
  · decide
  · decide

/-- A repo whose description is ten copies of the two-byte scalar U+00E9:
ten user-perceived characters, twenty bytes. -/
def tenAccentRepo : Repo :=
  { author := ['f'], description := List.replicate 10 'é', name := ['g'], stars := 1 }

/-- C3 counterexample: the description counts 10 scalars (and 10 grapheme
clusters, each scalar standing alone), which is below length_left = 16, so
the claim demands the sanitized description unmodified; the code instead
compares the 20-byte length, truncates at byte 12 and returns six scalars
plus the ellipsis marker. -/
theorem byte_truncation_contradicts_grapheme_claim :
    scalarModel.count tenAccentRepo.description = 10 ∧
    make_post_description tenAccentRepo 16 = some (List.replicate 6 'é' ++ ellipsisSuffix) ∧
    List.replicate 6 'é' ++ ellipsisSuffix ≠ sanitizeDescription tenAccentRepo.description := by
  decide

/-- C3 (amended): the description step replaces every commercial at by the
substitute scalar, then compares the UTF-8 BYTE length of the ORIGINAL
description with length_left; below the bound the sanitized description is
used unmodified, otherwise every successful result is the block of exactly
length_left - 4 BYTES cut from the sanitized description followed by the
four-character marker (and length_left is at least 4). -/
theorem make_post_description_byte_semantics (repo : Repo) (L : Nat) :
    (utf8Len repo.description < L →
      make_post_description repo L = some (sanitizeDescription repo.description)) ∧
    (L ≤ utf8Len repo.description →
      ∀ d, make_post_description repo L = some d →
        4 ≤ L ∧ ∃ a b, sanitizeDescription repo.description = a ++ b ∧
          utf8Len a = L - 4 ∧ d = a ++ ellipsisSuffix) := by
  constructor
  · intro h
    simp [make_post_description, h]
  · intro hge d hd
    unfold make_post_description at hd
    rw [if_neg (by omega)] at hd
    split at hd
    · exact absurd hd (by simp)
    · rename_i hB
      rw [Option.map_eq_some'] at hd
      obtain ⟨⟨a, b⟩, hsp, rfl⟩ := hd
      obtain ⟨hs, hlen⟩ := splitAtByteBoundary_spec _ _ _ _ hsp
      exact ⟨by omega, a, b, hs, hlen, rfl⟩

/-- Concrete short item for the C3 witness: the description fits. -/
def c3FitsRepo : Repo := { author := ['m'], description := ['o', 'k'], name := ['n'], stars := 5 }

/-- Concrete long item for the C3 witness: ten one-byte scalars against
length_left = 10. -/
def c3LongRepo : Repo :=
  { author := ['m'], description := List.replicate 10 'a', name := ['n'], stars := 5 }

/-- Witness for the amended C3 theorem at concrete items. -/
theorem make_post_description_byte_semantics_witness :
    make_post_description c3FitsRepo 100 = some (sanitizeDescription c3FitsRepo.description) ∧
    (4 ≤ 10 ∧ ∃ a b, sanitizeDescription c3LongRepo.description = a ++ b ∧
      utf8Len a = 10 - 4 ∧ (List.replicate 6 'a' ++ ellipsisSuffix) = a ++ ellipsisSuffix) := by
  refine ⟨(make_post_description_byte_semantics c3FitsRepo 100).1 (by decide),
    (make_post_description_byte_semantics c3LongRepo 10).2 (by decide) _ (by decide)⟩

/-- A repo whose ASCII description has exactly ten bytes, ten scalars and
ten grapheme clusters. -/
def boundaryRepo : Repo :=
  { author := ['x'], description := List.replicate 10 'a', name := ['y'], stars := 2 }

/-- C4 counterexample: with length_left = 10 and a description of grapheme
count exactly 10, the claim says the description is NOT truncated; the code
reaches the strict comparison 10 < 10, fails it, and truncates, appending
the ellipsis marker. -/
theorem boundary_equality_truncates :
    scalarModel.count boundaryRepo.description = 10 ∧
    make_post_description boundaryRepo 10 = some (List.replicate 6 'a' ++ ellipsisSuffix) ∧
    List.replicate 6 'a' ++ ellipsisSuffix ≠ sanitizeDescription boundaryRepo.description := by
  decide

/-- C4 (amended): the boundary sits one unit lower than claimed, in byte
units: a description one byte SHORT of length_left is passed through
unmodified, while a description of exactly length_left bytes is truncated,
every successful result ending in the ellipsis marker. -/
theorem truncation_boundary_byte_equality (repo : Repo) (L : Nat) :
    (utf8Len repo.description + 1 = L →
      make_post_description repo L = some (sanitizeDescription repo.description)) ∧
    (utf8Len repo.description = L → 4 ≤ L →
      ∀ d, make_post_description repo L = some d → ∃ a, d = a ++ ellipsisSuffix) := by
  constructor
  · intro h
    have hlt : utf8Len repo.description < L := by omega
    simp [make_post_description, hlt]
  · intro hedge h4 d hd
    unfold make_post_description at hd
    rw [if_neg (by omega)] at hd
    rw [if_neg (by omega)] at hd
    rw [Option.map_eq_some'] at hd
    obtain ⟨⟨a, b⟩, hsp, rfl⟩ := hd
    exact ⟨a, rfl⟩

/-- Concrete item one byte below the boundary for the C4 witness. -/
def c4BelowRepo : Repo :=
  { author := ['u'], description := List.replicate 9 'b', name := ['v'], stars := 7 }

/-- Concrete item exactly at the boundary for the C4 witness. -/
def c4AtRepo : Repo :=
  { author := ['u'], description := List.replicate 10 'b', name := ['v'], stars := 7 }

/-- Witness for the amended C4 theorem at concrete items. -/
theorem truncation_boundary_byte_equality_witness :
    make_post_description c4BelowRepo 10 = some (sanitizeDescription c4BelowRepo.description) ∧
    (∃ a, (List.replicate 6 'b' ++ ellipsisSuffix) = a ++ ellipsisSuffix) := by
  refine ⟨(truncation_boundary_byte_equality c4BelowRepo 10).1 (by decide),
    (truncation_boundary_byte_equality c4AtRepo 10).2 (by decide) (by decide) _ (by decide)⟩

/-- DenylistConfig from main.rs. -/
structure DenylistConfig where
  names : List (List Char)
  authors : List (List Char)
  descriptions : List (List Char)

/-- Models Rust str::to_lowercase scalar by scalar.  On ASCII input (all
the case-insensitive comparisons exercised by the repository and its
tests) this coincides with Rust; outside ASCII Rust may additionally apply
multi-scalar Unicode mappings not represented here. -/
def lowerStr (s : List Char) : List Char := s.map Char.toLower

/-- The method contains of DenylistConfig in main.rs: exact name
membership, exact author membership, or some denylisted fragment occurring
inside the lowercased description (Rust str::contains is substring
containment, i.e. an infix of the scalar sequence). -/
def DenylistConfig.contains (dl : DenylistConfig) (repo : Repo) : Bool :=
  dl.names.contains repo.name || dl.authors.contains repo.author ||
    (dl.descriptions.map (fun d => decide (lowerStr d <:+: lowerStr repo.description))).any
      (fun b => b)

/-- C8: the denylist excludes an item exactly when at least one criterion
matches: exact (case-sensitive) author equality with some author entry,
exact name equality with some name entry, or some description entry being
a case-insensitive substring of the description; in particular a rule set
in which no criterion matches never excludes. -/
theorem denylist_or_semantics (dl : DenylistConfig) (repo : Repo) :
    dl.contains repo = true ↔
      (repo.author ∈ dl.authors ∨ repo.name ∈ dl.names ∨
        ∃ d ∈ dl.descriptions, lowerStr d <:+: lowerStr repo.description) := by
  unfold DenylistConfig.contains
  simp only [Bool.or_eq_true, List.any_eq_true, List.mem_map, List.elem_iff,
    decide_eq_true_iff]
  constructor
  · rintro ((hn | ha) | ⟨b, ⟨d, hd, rfl⟩, hb⟩)
    · exact Or.inr (Or.inl hn)
    · exact Or.inl ha
    · exact Or.inr (Or.inr ⟨d, hd, of_decide_eq_true hb⟩)
  · rintro (ha | hn | ⟨d, hd, hinf⟩)
    · exact Or.inl (Or.inr ha)
    · exact Or.inl (Or.inl hn)
    · exact Or.inr ⟨true, ⟨d, hd, by simp [hinf]⟩, rfl⟩

/-- C10: if the description denylist holds the empty string, every item is
excluded, because the empty string is an infix of every description. -/
theorem empty_description_entry_excludes_all (dl : DenylistConfig) (repo : Repo)
    (h : ([] : List Char) ∈ dl.descriptions) : dl.contains repo = true := by
  unfold DenylistConfig.contains
  simp only [Bool.or_eq_true, List.any_eq_true, List.mem_map]
  refine Or.inr ⟨true, ⟨[], h, ?_⟩, rfl⟩
  simp [lowerStr, List.nil_infix]

/-- A denylist whose description rules hold exactly the empty string. -/
def emptyEntryDenylist : DenylistConfig := { names := [], authors := [], descriptions := [[]] }

/-- An arbitrary concrete item for the C10 witness. -/
def c10Repo : Repo := { author := ['r'], description := ['z'], name := ['s'], stars := 4 }

/-- Witness for C10 at a concrete denylist and item. -/
theorem empty_description_entry_excludes_all_witness :
    ([] : List Char) ∈ emptyEntryDenylist.descriptions ∧
      emptyEntryDenylist.contains c10Repo = true :=
  ⟨by decide, empty_description_entry_excludes_all emptyEntryDenylist c10Repo (by decide)⟩

/-- The three destinations configured in main.rs. -/
inductive Dest
  | twitter
  | mastodon
  | bluesky
deriving DecidableEq

/-- Observable actions of one discovery cycle: a destination publish call
together with its outcome, and a SETEX marking attempt together with its
outcome. -/
inductive Event
  | published (d : Dest) (key : List Char) (ok : Bool)
  | markTried (key : List Char) (ok : Bool)
deriving DecidableEq

/-- How one discovery cycle of main_loop ends: normally, with a fetch
error, with a store error escaping through the question-mark operator, or
by a panic (which nothing in main catches). -/
inductive CycleEnd
  | ok
  | fetchFailed
  | storeFailed
  | panicked
deriving DecidableEq

/-- The dedup key of main.rs: author, slash, name. -/
def postKey (repo : Repo) : List Char := repo.author ++ '/' :: repo.name

/-- Whether a Rust Result is Ok. -/
def exceptOk : Except Unit Unit → Bool
  | .ok _ => true
  | .error _ => false

/-- The per-cycle environment of main_loop: configuration (denylist and
which destinations are configured) and the outcomes of the external calls,
one oracle per call site.  A destination whose flag is false models a
configuration block that is absent. -/
structure LoopEnv where
  deny : DenylistConfig
  twitterOn : Bool
  mastodonOn : Bool
  blueskyOn : Bool
  check : Repo → Except Unit Bool
  pubTw : Repo → Except Unit Unit
  pubMa : Repo → Except Unit Unit
  fetchImage : Repo → Except Unit Unit
  pubBs : Repo → Except Unit Unit
  markRepo : Repo → Except Unit Unit

/-- The Twitter block of main_loop for one item: when configured, the text
is built first (a formatter panic, none, aborts everything), then the
publish call is made and its failure only logged. -/
def twitterEvents (env : LoopEnv) (r : Repo) : Option (List Event) :=
  if env.twitterOn then
    match make_tweet r with
    | none => none
    | some _ => some [Event.published .twitter (postKey r) (exceptOk (env.pubTw r))]
  else some []

/-- The Mastodon block of main_loop for one item, as twitterEvents. -/
def mastodonEvents (env : LoopEnv) (r : Repo) : Option (List Event) :=
  if env.mastodonOn then
    match make_toot r with
    | none => none
    | some _ => some [Event.published .mastodon (postKey r) (exceptOk (env.pubMa r))]
  else some []

/-- The Bluesky block of main_loop for one item: post_bluesky first fetches
the thumbnail (a failure there is the publish call failing, only logged),
then builds the text (panic possible), then posts. -/
def blueskyEvents (env : LoopEnv) (r : Repo) : Option (List Event) :=
  if env.blueskyOn then
    match env.fetchImage r with
    | .error _ => some [Event.published .bluesky (postKey r) false]
    | .ok _ =>
      match make_bluesky_text r with
      | none => none
      | some _ => some [Event.published .bluesky (postKey r) (exceptOk (env.pubBs r))]
  else some []

/-- The overall outcome flag of the Bluesky publish attempt. -/
def blueskyOutcome (env : LoopEnv) (r : Repo) : Bool :=
  if exceptOk (env.fetchImage r) then exceptOk (env.pubBs r) else false

/-- The body of the per-item part of main_loop after the denylist and
dedup checks: the three destination blocks in source order, then the
unconditional marking whose store error escapes through the question-mark
operator. -/
def processItem (env : LoopEnv) (r : Repo) : List Event × Option CycleEnd :=
  match twitterEvents env r with
  | none => ([], some .panicked)
  | some e1 =>
    match mastodonEvents env r with
    | none => (e1, some .panicked)
    | some e2 =>
      match blueskyEvents env r with
      | none => (e1 ++ e2, some .panicked)
      | some e3 =>
        match env.markRepo r with
        | .ok _ => (e1 ++ e2 ++ e3 ++ [Event.markTried (postKey r) true], none)
        | .error _ => (e1 ++ e2 ++ e3 ++ [Event.markTried (postKey r) false], some .storeFailed)

/-- The for-loop of main_loop over the fetched batch: a denylisted or
already-posted item is skipped, a store-check error escapes through the
question-mark operator ending the whole batch, and otherwise the item is
processed and the loop continues. -/
def processRepos (env : LoopEnv) : List Repo → List Event × CycleEnd
  | [] => ([], .ok)
  | r :: rest =>
    if env.deny.contains r then processRepos env rest
    else
      match env.check r with
      | .error _ => ([], .storeFailed)
      | .ok true => processRepos env rest
      | .ok false =>
        match processItem env r with
        | (evs, some e) => (evs, e)
        | (evs, none) => (evs ++ (processRepos env rest).1, (processRepos env rest).2)

/-- main_loop from main.rs: fetch the batch (an error ends the cycle with
a fetch failure), then process it. -/
def main_loop (env : LoopEnv) (fetched : Except Unit (List Repo)) : List Event × CycleEnd :=
  match fetched with
  | .error _ => ([], .fetchFailed)
  | .ok repos => processRepos env repos

/-- First item of the C5 batch: its store check errors. -/
def firstRepo : Repo := { author := ['a'], description := ['d'], name := ['p'], stars := 1 }

/-- Second item of the C5 batch: perfectly publishable. -/
def secondRepo : Repo := { author := ['b'], description := ['e'], name := ['q'], stars := 2 }

/-- Environment for the C5 counterexample: empty denylist, Twitter
configured, every call succeeds except the store check of the first item. -/
def storeErrEnv : LoopEnv :=
  { deny := { names := [], authors := [], descriptions := [] }
    twitterOn := true
    mastodonOn := false
    blueskyOn := false
    check := fun r => if r = firstRepo then .error () else .ok false
    pubTw := fun _ => .ok ()
    pubMa := fun _ => .ok ()
    fetchImage := fun _ => .ok ()
    pubBs := fun _ => .ok ()
    markRepo := fun _ => .ok () }

/-- C5 counterexample: the store check fails for the first item of the
batch; the claim says processing continues with the second item, but the
cycle ends immediately with the store error: no event at all is emitted,
in particular the publishable second item is neither published nor marked. -/
theorem store_error_skips_rest_of_batch_cex :
    storeErrEnv.deny.contains secondRepo = false ∧
    storeErrEnv.check secondRepo = Except.ok false ∧
    (make_tweet secondRepo).isSome = true ∧
    processRepos storeErrEnv [firstRepo, secondRepo] = ([], CycleEnd.storeFailed) := by
  refine ⟨by decide, rfl, by decide, by decide⟩

/-- C5 (amended): when the store check of an item that is not denylisted
fails, that item is neither published nor marked, and the error escapes
through the question-mark operator: main_loop ends the WHOLE batch with the
store error (the outer loop then logs it and fetches a fresh batch after
the fetch interval) instead of continuing with the next item. -/
theorem store_check_error_aborts_batch (env : LoopEnv) (r : Repo) (rest : List Repo)
    (hdeny : env.deny.contains r = false) (hcheck : env.check r = .error ()) :
    processRepos env (r :: rest) = ([], CycleEnd.storeFailed) := by
  simp [processRepos, hdeny, hcheck]

/-- Witness for the amended C5 theorem at a concrete batch. -/
theorem store_check_error_aborts_batch_witness :
    storeErrEnv.deny.contains firstRepo = false ∧
    processRepos storeErrEnv [firstRepo] = ([], CycleEnd.storeFailed) :=
  ⟨by decide, store_check_error_aborts_batch storeErrEnv firstRepo [] (by decide) rfl⟩

theorem twitterEvents_eq (env : LoopEnv) (r : Repo)
    (h : env.twitterOn = true → (make_tweet r).isSome = true) :
    twitterEvents env r = some (if env.twitterOn then
      [Event.published .twitter (postKey r) (exceptOk (env.pubTw r))] else []) := by
  unfold twitterEvents
  cases htw : env.twitterOn with
  | false => simp
  | true =>
    obtain ⟨c, hc⟩ := Option.isSome_iff_exists.mp (h htw)
    simp [hc]

theorem mastodonEvents_eq (env : LoopEnv) (r : Repo)
    (h : env.mastodonOn = true → (make_toot r).isSome = true) :
    mastodonEvents env r = some (if env.mastodonOn then
      [Event.published .mastodon (postKey r) (exceptOk (env.pubMa r))] else []) := by
  unfold mastodonEvents
  cases hma : env.mastodonOn with
  | false => simp
  | true =>
    obtain ⟨c, hc⟩ := Option.isSome_iff_exists.mp (h hma)
    simp [hc]

theorem blueskyEvents_eq (env : LoopEnv) (r : Repo)
    (h : env.blueskyOn = true → (make_bluesky_text r).isSome = true) :
    blueskyEvents env r = some (if env.blueskyOn then
      [Event.published .bluesky (postKey r) (blueskyOutcome env r)] else []) := by
  unfold blueskyEvents blueskyOutcome
  cases hbs : env.blueskyOn with
  | false => simp
  | true =>
    cases himg : env.fetchImage r with
    | error e => simp [exceptOk]
    | ok u =>
      obtain ⟨c, hc⟩ := Option.isSome_iff_exists.mp (h hbs)
      simp [hc, exceptOk]

/-- When no formatter panics, one item produces exactly the publish event
of each configured destination, in source order, followed by the marking
attempt; the cycle goes on unless the marking itself fails. -/
theorem processItem_eq (env : LoopEnv) (r : Repo)
    (h1 : env.twitterOn = true → (make_tweet r).isSome = true)
    (h2 : env.mastodonOn = true → (make_toot r).isSome = true)
    (h3 : env.blueskyOn = true → (make_bluesky_text r).isSome = true) :
    processItem env r =
      ((if env.twitterOn then
          [Event.published .twitter (postKey r) (exceptOk (env.pubTw r))] else []) ++
       (if env.mastodonOn then
          [Event.published .mastodon (postKey r) (exceptOk (env.pubMa r))] else []) ++
       (if env.blueskyOn then
          [Event.published .bluesky (postKey r) (blueskyOutcome env r)] else []) ++
       [Event.markTried (postKey r) (exceptOk (env.markRepo r))],
       if exceptOk (env.markRepo r) then none else some CycleEnd.storeFailed) := by
  unfold processItem
  rw [twitterEvents_eq env r h1, mastodonEvents_eq env r h2, blueskyEvents_eq env r h3]
  cases hm : env.markRepo r with
  | ok u => simp [exceptOk]
  | error e => simp [exceptOk]

/-- Every event of the first item of a batch that passes the denylist and
dedup checks is an event of the whole batch. -/
theorem mem_processRepos_head (env : LoopEnv) (r : Repo) (rest : List Repo)
    (hdeny : env.deny.contains r = false) (hcheck : env.check r = .ok false)
    (x : Event) (hx : x ∈ (processItem env r).1) :
    x ∈ (processRepos env (r :: rest)).1 := by
  simp only [processRepos, hdeny, Bool.false_eq_true, if_false, hcheck]
  cases hpi : processItem env r with
  | mk evs o =>
    rw [hpi] at hx
    cases o with
    | some e => simpa using hx
    | none => simp [List.mem_append]; exact Or.inl hx

/-- C6: for an item that passes the denylist and dedup checks (and whose
texts format without panicking, see C2), whatever the outcome of every
publish call, each configured destination receives its publish attempt -
one failing destination never suppresses the attempt on another - and the
marking of the item is attempted afterwards in every case. -/
theorem publish_failure_isolated_and_mark_attempted (env : LoopEnv) (r : Repo)
    (rest : List Repo)
    (hdeny : env.deny.contains r = false)
    (hcheck : env.check r = .ok false)
    (h1 : env.twitterOn = true → (make_tweet r).isSome = true)
    (h2 : env.mastodonOn = true → (make_toot r).isSome = true)
    (h3 : env.blueskyOn = true → (make_bluesky_text r).isSome = true) :
    (env.twitterOn = true →
      Event.published .twitter (postKey r) (exceptOk (env.pubTw r))
        ∈ (processRepos env (r :: rest)).1) ∧
    (env.mastodonOn = true →
      Event.published .mastodon (postKey r) (exceptOk (env.pubMa r))
        ∈ (processRepos env (r :: rest)).1) ∧
    (env.blueskyOn = true →
      Event.published .bluesky (postKey r) (blueskyOutcome env r)
        ∈ (processRepos env (r :: rest)).1) ∧
    Event.markTried (postKey r) (exceptOk (env.markRepo r))
      ∈ (processRepos env (r :: rest)).1 := by
  have hpi := processItem_eq env r h1 h2 h3
  refine ⟨fun htw => ?_, fun hma => ?_, fun hbs => ?_, ?_⟩ <;>
    apply mem_processRepos_head env r rest hdeny hcheck <;> rw [hpi]
  · simp [htw]
  · simp [hma]
  · simp [hbs]
  · simp

/-- Environment for the C6 witness: all three destinations configured, the
Twitter publish call failing, everything else succeeding. -/
def c6Env : LoopEnv :=
  { deny := { names := [], authors := [], descriptions := [] }
    twitterOn := true
    mastodonOn := true
    blueskyOn := true
    check := fun _ => .ok false
    pubTw := fun _ => .error ()
    pubMa := fun _ => .ok ()
    fetchImage := fun _ => .ok ()
    pubBs := fun _ => .ok ()
    markRepo := fun _ => .ok () }

/-- Concrete item for the C6 witness. -/
def c6Repo : Repo := { author := ['w'], description := ['h', 'i'], name := ['z'], stars := 3 }

/-- Witness for C6: with the Twitter call failing, Mastodon and Bluesky
are still attempted and the item still gets its marking attempt. -/
theorem publish_failure_isolated_and_mark_attempted_witness :
    Event.published .twitter (postKey c6Repo) (exceptOk (c6Env.pubTw c6Repo))
      ∈ (processRepos c6Env [c6Repo]).1 ∧
    Event.published .mastodon (postKey c6Repo) (exceptOk (c6Env.pubMa c6Repo))
      ∈ (processRepos c6Env [c6Repo]).1 ∧
    Event.published .bluesky (postKey c6Repo) (blueskyOutcome c6Env c6Repo)
      ∈ (processRepos c6Env [c6Repo]).1 ∧
    Event.markTried (postKey c6Repo) (exceptOk (c6Env.markRepo c6Repo))
      ∈ (processRepos c6Env [c6Repo]).1 := by
  have h := publish_failure_isolated_and_mark_attempted c6Env c6Repo []
    (by decide) rfl (fun _ => by decide) (fun _ => by decide) (fun _ => by decide)
  exact ⟨h.1 rfl, h.2.1 rfl, h.2.2.1 rfl, h.2.2.2⟩

/-- What the process does after one cycle. -/
inductive StepAction
  | keepRunning
  | exitProcess
deriving DecidableEq

/-- The body of the endless loop in main from main.rs applied to the
outcome of one main_loop cycle: an Err outcome (fetch or store failure) is
only logged, then the loop sleeps fetch_interval and goes round again, as
it does after a successful cycle; nothing catches a panic. -/
def main_step : CycleEnd → StepAction
  | .panicked => .exitProcess
  | _ => .keepRunning

/-- The outer loop run against a stream of cycle outcomes: alive after n
iterations unless some earlier cycle ended the process. -/
def runMain (cycles : Nat → CycleEnd) : Nat → StepAction
  | 0 => .keepRunning
  | n + 1 =>
    match runMain cycles n with
    | .exitProcess => .exitProcess
    | .keepRunning => main_step (cycles n)

/-- C7: for every stream of cycle outcomes among the enumerated ones -
success, fetch failure, store failure, with publish failures already
absorbed inside a successful cycle (see C6) - the outer loop is still
running after any number of cycles: every such error is caught by the
if-let in main, logged, and followed by the interval sleep and the next
cycle.  (CycleEnd.panicked, a formatter panic, is the one outcome outside
the list of the claim, and the one nothing catches; see C2.) -/
theorem loop_never_exits (cycles : Nat → CycleEnd)
    (h : ∀ n, cycles n ≠ CycleEnd.panicked) :
    ∀ n, runMain cycles n = StepAction.keepRunning := by
  intro n
  induction n with
  | zero => rfl
  | succ n ih =>
    simp only [runMain, ih]
    cases hc : cycles n with
    | ok => rfl
    | fetchFailed => rfl
    | storeFailed => rfl
    | panicked => exact absurd hc (h n)

/-- Witness for C7: a stream of cycles that all fail at the store keeps
the loop running. -/
theorem loop_never_exits_witness :
    runMain (fun _ => CycleEnd.storeFailed) 3 = StepAction.keepRunning :=
  loop_never_exits (fun _ => CycleEnd.storeFailed) (fun _ h => nomatch h) 3

/-- Modelled from the spec: the dedup store is an external Redis instance,
specified only at its interface boundary (EXISTS key, SETEX key ttl value
with expiry in seconds).  A store state is a list of records of key,
stored value and absolute expiry instant. -/
def RedisState : Type := List (List Char × Nat × Nat)

/-- Modelled from the spec: SETEX key ttl value stores the value under the
key with expiry now + ttl, replacing any previous record of the key. -/
def setEx (st : RedisState) (key : List Char) (val ttl now : Nat) : RedisState :=
  (key, val, now + ttl) :: st.filter (fun e => !(e.1 == key))

/-- Modelled from the spec: EXISTS key is true exactly when an unexpired
record of the key is present. -/
def existsKey (st : RedisState) (key : List Char) (now : Nat) : Bool :=
  st.any (fun e => e.1 == key && decide (now < e.2.2))

/-- mark_posted_repo from main.rs: SETEX of the key author/name with the
current timestamp as value and the configured ttl. -/
def mark_posted_repo (st : RedisState) (repo : Repo) (ttl now : Nat) : RedisState :=
  setEx st (postKey repo) now ttl now

/-- is_repo_posted from main.rs: EXISTS of the key author/name. -/
def is_repo_posted (st : RedisState) (repo : Repo) (now : Nat) : Bool :=
  existsKey st (postKey repo) now

/-- C9: marking is sticky until the TTL expires and idempotent.  After
marking at time t with expiry ttl the check answers true at every instant
before t + ttl and false from t + ttl on, and re-marking an already marked
key succeeds and only refreshes the expiry: the doubly marked store is the
store marked once at the later time. -/
theorem mark_idempotent_refreshes_ttl (st : RedisState) (repo : Repo) (ttl t tq t2 : Nat) :
    (tq < t + ttl → is_repo_posted (mark_posted_repo st repo ttl t) repo tq = true) ∧
    (t + ttl ≤ tq → is_repo_posted (mark_posted_repo st repo ttl t) repo tq = false) ∧
    mark_posted_repo (mark_posted_repo st repo ttl t) repo ttl t2 =
      mark_posted_repo st repo ttl t2 := by
  refine ⟨?_, ?_, ?_⟩
  · intro h
    simp [is_repo_posted, mark_posted_repo, existsKey, setEx, List.any_cons, h]
  · intro h
    unfold is_repo_posted mark_posted_repo existsKey setEx
    rw [List.any_cons]
    have hlt : ¬ tq < t + ttl := by omega
    simp only [hlt, decide_False, Bool.and_false, Bool.false_or]
    rw [List.any_eq_false]
    intro e he
    rw [List.mem_filter] at he
    have : (e.1 == postKey repo) = false := by
      have h2 := he.2
      simpa using h2
    simp [this]
  · unfold mark_posted_repo setEx
    rw [List.filter_cons]
    simp [List.filter_filter]

/-- Concrete item for the C9 witness. -/
def c9Repo : Repo := { author := ['k'], description := [], name := ['l'], stars := 9 }

/-- Witness for C9 on the empty store: mark at time 5 with ttl 10, check
at 9 (true) and at 20 (false), and re-mark at time 7. -/
theorem mark_idempotent_refreshes_ttl_witness :
    is_repo_posted (mark_posted_repo [] c9Repo 10 5) c9Repo 9 = true ∧
    is_repo_posted (mark_posted_repo [] c9Repo 10 5) c9Repo 20 = false ∧
    mark_posted_repo (mark_posted_repo [] c9Repo 10 5) c9Repo 10 7 =
      mark_posted_repo [] c9Repo 10 7 :=
  ⟨(mark_idempotent_refreshes_ttl [] c9Repo 10 5 9 7).1 (by decide),
   (mark_idempotent_refreshes_ttl [] c9Repo 10 5 20 7).2.1 (by decide),
   (mark_idempotent_refreshes_ttl [] c9Repo 10 5 20 7).2.2⟩
